import Mathlib

/-!  Verification of the StudySphere quiz application.

A shallow embedding of the quiz engine (quiz page module), the bulk
question parser (add-passage module), and the passage/attempt repository
(passages and attempts modules).  JavaScript numbers that hold integral
values are modelled as `Nat`/`Int`; `Math.round` on a non-negative
rational `a/b` is modelled exactly as round-half-up; JS objects used as
integer-keyed maps are modelled as association lists; timestamps are
milliseconds as `Nat`.  -/

namespace StudySphere

/-- A multiple-choice question as stored on a passage document
(fields `q`, `options`, `answerIndex` in the authoring module). -/
structure Question where
  q : String
  options : List String
  answerIndex : Nat
  deriving DecidableEq

/-- Lookup in a JS object keyed by question index
(`userAnswers[index]`, `undefined` becomes `none`). -/
def lookupAnswer : List (Nat × Nat) → Nat → Option Nat
  | [], _ => none
  | (k, v) :: t, i => if k = i then some v else lookupAnswer t i

/-- Models `Math.round (num / den)` for non-negative operands:
round half toward positive infinity. -/
def mathRound (num den : Nat) : Nat := (2 * num + den) / (2 * den)

/-- The correct-count accumulation of `calculateScore`:
`questions.forEach((question, index) => ...)` increments `correct`
exactly when `userAnswers[index] === question.answerIndex`; an absent
answer (`undefined`) is never equal to a number. -/
def countCorrectFrom (answers : List (Nat × Nat)) : Nat → List Question → Nat
  | _, [] => 0
  | i, q :: qs =>
    (if lookupAnswer answers i == some q.answerIndex then 1 else 0)
      + countCorrectFrom answers (i + 1) qs

/-- One entry of the per-question breakdown built by `calculateScore`. -/
structure BreakdownItem where
  question : String
  userAnswer : String
  correctAnswer : String
  isCorrect : Bool
  deriving DecidableEq

/-- The breakdown rows pushed by the same `forEach` of `calculateScore`.
An out-of-range option access (JS `undefined`) is rendered as `""`. -/
def breakdownFrom (answers : List (Nat × Nat)) : Nat → List Question → List BreakdownItem
  | _, [] => []
  | i, q :: qs =>
    { question := q.q
      userAnswer :=
        match lookupAnswer answers i with
        | some a => q.options.getD a ""
        | none => "Not answered"
      correctAnswer := q.options.getD q.answerIndex ""
      isCorrect := lookupAnswer answers i == some q.answerIndex }
      :: breakdownFrom answers (i + 1) qs

/-- The record returned by `calculateScore`. -/
structure ScoreResult where
  correct : Nat
  total : Nat
  percentage : Nat
  timeElapsed : Nat
  breakdown : List BreakdownItem
  deriving DecidableEq

/-- Embeds `calculateScore` from the quiz module: counts correct answers,
computes `Math.round((correct / total) * 100)` and
`Math.floor((Date.now() - startTime) / 1000)`. -/
def calculateScore (questions : List Question) (answers : List (Nat × Nat))
    (startTime now : Nat) : ScoreResult :=
  let total := questions.length
  let correct := countCorrectFrom answers 0 questions
  { correct := correct
    total := total
    percentage := mathRound (100 * correct) total
    timeElapsed := (now - startTime) / 1000
    breakdown := breakdownFrom answers 0 questions }

/-- The set of question indices answered correctly, written the way the
specification states it: indices `i` of the passage with
`A[i] = correctIndex[i]`. -/
def specCorrectList (questions : List Question) (answers : List (Nat × Nat)) : List Nat :=
  (List.range questions.length).filter (fun i =>
    lookupAnswer answers i == (questions.get? i).map Question.answerIndex)

/-- Cardinality of `specCorrectList`. -/
def specCorrectCount (questions : List Question) (answers : List (Nat × Nat)) : Nat :=
  (specCorrectList questions answers).length

theorem countCorrectFrom_append (answers : List (Nat × Nat)) (q : Question) :
    ∀ (qs : List Question) (n : Nat),
      countCorrectFrom answers n (qs ++ [q])
        = countCorrectFrom answers n qs
          + (if lookupAnswer answers (n + qs.length) == some q.answerIndex then 1 else 0) := by
  intro qs
  induction qs with
  | nil => intro n; simp [countCorrectFrom]
  | cons p t ih =>
    intro n
    simp only [List.cons_append, countCorrectFrom, List.append_eq, ih (n + 1), List.length_cons]
    have hidx : n + 1 + t.length = n + (t.length + 1) := by omega
    rw [hidx]
    omega

theorem countCorrectFrom_eq_specCorrectCount (questions : List Question)
    (answers : List (Nat × Nat)) :
    countCorrectFrom answers 0 questions = specCorrectCount questions answers := by
  induction questions using List.reverseRecOn with
  | nil => simp [countCorrectFrom, specCorrectCount, specCorrectList]
  | append_singleton qs q ih =>
    rw [countCorrectFrom_append, ih]
    simp only [specCorrectCount, specCorrectList, List.length_append, List.length_singleton,
      List.range_succ, List.filter_append, List.length_append]
    have hcong :
        (List.range qs.length).filter (fun i =>
            lookupAnswer answers i == ((qs ++ [q]).get? i).map Question.answerIndex)
          = (List.range qs.length).filter (fun i =>
              lookupAnswer answers i == (qs.get? i).map Question.answerIndex) := by
      apply List.filter_congr
      intro i hi
      rw [List.mem_range] at hi
      rw [List.get?_append hi]
    rw [hcong]
    have hlast : ((qs ++ [q]).get? qs.length) = some q := List.get?_concat_length qs q
    simp only [hlast, Nat.zero_add, Option.map_some', List.filter_cons, List.filter_nil]
    by_cases h : lookupAnswer answers qs.length = some q.answerIndex
    · simp [h]
    · simp [h]

theorem mathRound_le_100 (c n : Nat) (h1 : 1 ≤ n) (h2 : c ≤ n) :
    mathRound (100 * c) n ≤ 100 := by
  have hlt : mathRound (100 * c) n < 101 := by
    rw [mathRound, Nat.div_lt_iff_lt_mul (by omega : 0 < 2 * n)]
    omega
  omega

/-- One invocation of `auth.recordQuizAttempt(passageId, score, timeElapsed,
totalQuestions)` made by `showResults`; each invocation persists a new
Attempt document (`addDoc`, never an update). -/
structure SavedAttempt where
  passageId : String
  score : Nat
  timeElapsed : Nat
  totalQuestions : Nat
  deriving DecidableEq

/-- The mutable quiz-page state: module-level variables `currentPassage`
(its id, questions and time limit), `startTime`, `userAnswers`, and the
timer interval (`timerRunning` is true while the `setInterval` source is
installed).  `displayed` is the score result last rendered by
`showResults`; `savedAttempts` records the attempt-persisting calls;
`autoSubmits` counts how many times the timer callback has triggered
automatic submission. -/
structure QuizState where
  passageId : String
  questions : List Question
  timeLimit : Nat
  startTime : Nat
  userAnswers : List (Nat × Nat)
  timerRunning : Bool
  loggedIn : Bool
  savedAttempts : List SavedAttempt
  displayed : Option ScoreResult
  autoSubmits : Nat
  deriving DecidableEq

/-- Seconds elapsed since the quiz started:
`Math.floor((Date.now() - startTime) / 1000)`. -/
def elapsedSeconds (s : QuizState) (now : Nat) : Nat :=
  (now - s.startTime) / 1000

/-- The remaining time computed by every timer tick:
`Math.max(0, timeLimit - elapsed)` (an `Int` clamped at 0). -/
def remainingSeconds (s : QuizState) (now : Nat) : Int :=
  max 0 ((s.timeLimit : Int) - (elapsedSeconds s now : Int))

/-- Models `Object.keys(userAnswers).length`: the number of distinct answered
question indices. -/
def answeredCount (s : QuizState) : Nat :=
  (s.userAnswers.map Prod.fst).dedup.length

/-- Embeds `selectAnswer(questionIndex, answerIndex)`: overwrites any prior
answer for that question (last write wins). -/
def selectAnswer (s : QuizState) (questionIndex answerIndex : Nat) : QuizState :=
  { s with userAnswers :=
      (s.userAnswers.filter (fun p => p.1 != questionIndex)) ++ [(questionIndex, answerIndex)] }

/-- Embeds `showResults(results, autoSubmit)`: renders the score modal and, when
a user is signed in, calls `auth.recordQuizAttempt(currentPassage.id,
results.correct, results.timeElapsed, results.total)`. -/
def showResults (s : QuizState) (results : ScoreResult) : QuizState :=
  let s1 := { s with displayed := some results }
  if s1.loggedIn then
    { s1 with savedAttempts := s1.savedAttempts ++
        [{ passageId := s1.passageId, score := results.correct,
           timeElapsed := results.timeElapsed, totalQuestions := results.total }] }
  else s1

/-- Embeds `submitQuiz(autoSubmit)`: first clears the timer interval; when not
auto-submitting with unanswered questions it asks `confirm(...)`
(`confirmAccept` is the answer of the dialog) and on decline restarts
the timer (`startTimer()`, keeping the original `startTime`) and
returns; otherwise it computes the score at the current wall clock and
shows the results. -/
def submitQuiz (s : QuizState) (auto confirmAccept : Bool) (now : Nat) : QuizState :=
  let s1 := { s with timerRunning := false }
  if auto = false ∧ answeredCount s1 < s1.questions.length ∧ confirmAccept = false then
    { s1 with timerRunning := true }
  else
    showResults s1 (calculateScore s1.questions s1.userAnswers s1.startTime now)

/-- One firing of the `setInterval` callback installed by `startTimer`:
recomputes the remaining seconds and, when it is exactly 0, calls
`submitQuiz(true)` (whose first statement clears the interval).  When the
interval is not installed the callback does not fire. -/
def timerTick (s : QuizState) (now : Nat) : QuizState :=
  if s.timerRunning = true then
    if remainingSeconds s now = 0 then
      { submitQuiz s true true now with autoSubmits := s.autoSubmits + 1 }
    else s
  else s

/-- A sequence of timer-callback firings at the given wall-clock times. -/
def runTicks (s : QuizState) (times : List Nat) : QuizState :=
  times.foldl timerTick s

/-- A concrete one-question session used to instantiate the theorems:
60-second limit, started at epoch 0, the single question answered
correctly, user signed in. -/
def exActive : QuizState :=
  { passageId := "p1"
    questions := [{ q := "2+2?", options := ["3", "4", "5", "6"], answerIndex := 1 }]
    timeLimit := 60
    startTime := 0
    userAnswers := [(0, 1)]
    timerRunning := true
    loggedIn := true
    savedAttempts := []
    displayed := none
    autoSubmits := 0 }

theorem timerTick_not_running (s : QuizState) (now : Nat)
    (h : s.timerRunning = false) : timerTick s now = s := by
  simp [timerTick, h]

theorem runTicks_not_running (s : QuizState) (times : List Nat)
    (h : s.timerRunning = false) : runTicks s times = s := by
  induction times with
  | nil => rfl
  | cons t ts ih =>
    simp only [runTicks, List.foldl_cons]
    rw [timerTick_not_running s t h]
    exact ih

theorem timerTick_zero (s : QuizState) (now : Nat)
    (hrun : s.timerRunning = true) (hzero : remainingSeconds s now = 0) :
    timerTick s now
      = { showResults { s with timerRunning := false }
            (calculateScore s.questions s.userAnswers s.startTime now) with
          autoSubmits := s.autoSubmits + 1 } := by
  simp [timerTick, hrun, hzero, submitQuiz]

/-- JS `String.prototype.split` on a single separator character. -/
def splitOnChar (c : Char) : List Char → List (List Char)
  | [] => [[]]
  | x :: t =>
    match splitOnChar c t with
    | [] => [[]]
    | r :: rs => if x = c then [] :: r :: rs else (x :: r) :: rs

/-- The whitespace stripped by JS `trim` (the characters relevant to this
application). -/
def isJsSpace (c : Char) : Bool :=
  c == ' ' || c == '\t' || c == '\n' || c == '\r'

/-- JS `String.prototype.trim`. -/
def jsTrim (s : List Char) : List Char :=
  ((s.dropWhile isJsSpace).reverse.dropWhile isJsSpace).reverse

/-- JS `line.replace(Char, "")`: removes only the first occurrence. -/
def removeFirstStar : List Char → List Char
  | [] => []
  | c :: t => if c = '*' then t else c :: removeFirstStar t

/-- Boolean prefix test on character lists (JS `startsWith`). -/
def beginsWith : List Char → List Char → Bool
  | [], _ => true
  | _ :: _, [] => false
  | a :: as, b :: bs => a == b && beginsWith as bs

/-- The regular expression `/^[A-D]\)/` of `parseQuestionText`. -/
def isOptionLine : List Char → Bool
  | c0 :: c1 :: _ => (c0 == 'A' || c0 == 'B' || c0 == 'C' || c0 == 'D') && c1 == ')'
  | _ => false

/-- A question object accumulated by `parseQuestionText`
(`{text, options, correctIndex}` with `correctIndex` starting at -1). -/
structure RawQuestion where
  text : String
  options : List String
  correctIndex : Int
  deriving DecidableEq

/-- The line loop of `parseQuestionText`: a line whose lowercase form
starts with `question:` closes the current question and opens a new one
with the trimmed remainder of the line; while a question is open, a line
matching `^[A-D]\)` appends the option text (first `*` removed, then
trimmed) and, when the line contains a `*`, sets `correctIndex` to the
position of that option; any other line is ignored. -/
def parseLines (cur : Option RawQuestion) : List (List Char) → List RawQuestion
  | [] =>
    match cur with
    | some q => [q]
    | none => []
  | line :: rest =>
    if beginsWith ("question:".toList) (line.map Char.toLower) then
      let newQ : RawQuestion :=
        { text := String.mk (jsTrim (line.drop 9)), options := [], correctIndex := -1 }
      match cur with
      | some q => q :: parseLines (some newQ) rest
      | none => parseLines (some newQ) rest
    else
      match cur with
      | some q =>
        if isOptionLine line then
          let isCorrect := line.contains '*'
          let optionText := String.mk (jsTrim (removeFirstStar (line.drop 2)))
          parseLines (some
            { q with options := q.options ++ [optionText],
                     correctIndex := if isCorrect then (q.options.length : Int)
                                     else q.correctIndex }) rest
        else parseLines (some q) rest
      | none => parseLines none rest

/-- Embeds `parseQuestionText(text)`: splits on newlines, trims each line, drops
empty lines, runs the line loop, and keeps only questions with a truthy
(non-empty) prompt, exactly 4 options, and `correctIndex >= 0`. -/
def parseQuestionText (text : String) : List RawQuestion :=
  let lines := ((splitOnChar '\n' text.toList).map jsTrim).filter (fun l => !l.isEmpty)
  (parseLines none lines).filter (fun q =>
    (!(q.text == "")) && (q.options.length == 4) && (decide ((0 : Int) ≤ q.correctIndex)))

/-- The invariant maintained by the line loop: the marked index of a
question object never reaches its option count. -/
def rawInv (q : RawQuestion) : Prop := q.correctIndex < (q.options.length : Int)

theorem parseLines_inv :
    ∀ (lines : List (List Char)) (cur : Option RawQuestion),
      (∀ q, cur = some q → rawInv q) →
      ∀ q ∈ parseLines cur lines, rawInv q := by
  intro lines
  induction lines with
  | nil =>
    intro cur hcur q hq
    cases cur with
    | none => simp [parseLines] at hq
    | some c =>
      simp [parseLines] at hq
      cases hq
      exact hcur _ rfl
  | cons line rest ih =>
    intro cur hcur q hq
    by_cases hmark : beginsWith ("question:".toList) (line.map Char.toLower) = true
    · cases cur with
      | none =>
        rw [parseLines, if_pos hmark] at hq
        exact ih _ (by intro p hp; cases hp; simp [rawInv]) q hq
      | some c =>
        rw [parseLines, if_pos hmark] at hq
        rcases List.mem_cons.mp hq with h | h
        · subst h; exact hcur q rfl
        · exact ih _ (by intro p hp; cases hp; simp [rawInv]) q h
    · cases cur with
      | none =>
        rw [parseLines, if_neg hmark] at hq
        exact ih none (by intro p hp; cases hp) q hq
      | some c =>
        rw [parseLines, if_neg hmark] at hq
        by_cases hopt : isOptionLine line = true
        · rw [if_pos hopt] at hq
          refine ih _ ?_ q hq
          intro p hp
          cases hp
          have hc := hcur c rfl
          simp only [rawInv] at hc ⊢
          simp only [List.length_append, List.length_singleton]
          split
          · push_cast
            omega
          · push_cast
            omega
        · rw [if_neg hopt] at hq
          exact ih _ (by intro p hp; cases hp; exact hcur c rfl) q hq

/-- Stable insertion into a list sorted by a numeric key in descending
order: the element goes in front of the first strictly smaller key, so a
later element never jumps ahead of an equal key (the behavior of
`Array.prototype.sort` with comparator `(a, b) => key(b) - key(a)`). -/
def insertByDesc {α : Type} (key : α → Nat) (a : α) : List α → List α
  | [] => [a]
  | b :: t => if key b ≤ key a then a :: b :: t else b :: insertByDesc key a t

/-- Stable sort by a numeric key, descending. -/
def sortByDesc {α : Type} (key : α → Nat) : List α → List α
  | [] => []
  | a :: t => insertByDesc key a (sortByDesc key t)

theorem mem_insertByDesc {α : Type} (key : α → Nat) (a x : α) :
    ∀ l : List α, x ∈ insertByDesc key a l ↔ x = a ∨ x ∈ l := by
  intro l
  induction l with
  | nil => simp [insertByDesc]
  | cons b t ih =>
    simp only [insertByDesc]
    split
    · simp
    · simp only [List.mem_cons, ih]
      tauto

theorem mem_sortByDesc {α : Type} (key : α → Nat) (x : α) :
    ∀ l : List α, x ∈ sortByDesc key l ↔ x ∈ l := by
  intro l
  induction l with
  | nil => simp [sortByDesc]
  | cons a t ih =>
    simp only [sortByDesc, mem_insertByDesc, ih, List.mem_cons]

theorem length_insertByDesc {α : Type} (key : α → Nat) (a : α) :
    ∀ l : List α, (insertByDesc key a l).length = l.length + 1 := by
  intro l
  induction l with
  | nil => rfl
  | cons b t ih =>
    simp only [insertByDesc]
    split
    · simp
    · simp [ih]

theorem length_sortByDesc {α : Type} (key : α → Nat) :
    ∀ l : List α, (sortByDesc key l).length = l.length := by
  intro l
  induction l with
  | nil => rfl
  | cons a t ih => simp [sortByDesc, length_insertByDesc, ih]

theorem pairwise_insertByDesc {α : Type} (key : α → Nat) (a : α) :
    ∀ l : List α, l.Pairwise (fun x y => key y ≤ key x) →
      (insertByDesc key a l).Pairwise (fun x y => key y ≤ key x) := by
  intro l
  induction l with
  | nil => intro _; simp [insertByDesc]
  | cons b t ih =>
    intro hl
    rw [List.pairwise_cons] at hl
    simp only [insertByDesc]
    split
    · rename_i hba
      rw [List.pairwise_cons]
      constructor
      · intro x hx
        rcases List.mem_cons.mp hx with h | h
        · subst h; exact hba
        · exact le_trans (hl.1 x h) hba
      · rw [List.pairwise_cons]
        exact hl
    · rename_i hba
      rw [List.pairwise_cons]
      constructor
      · intro x hx
        rcases (mem_insertByDesc key a x t).mp hx with h | h
        · subst h; omega
        · exact hl.1 x h
      · exact ih hl.2

theorem pairwise_sortByDesc {α : Type} (key : α → Nat) :
    ∀ l : List α, (sortByDesc key l).Pairwise (fun x y => key y ≤ key x) := by
  intro l
  induction l with
  | nil => simp [sortByDesc]
  | cons a t ih => exact pairwise_insertByDesc key a _ ih

/-- An attempt document of the `attempts` collection, with its
`attemptedAt` server timestamp already converted to a date
(milliseconds). -/
structure AttemptDoc where
  id : String
  userId : String
  subject : String
  score : Nat
  timeTakenSec : Nat
  attemptedAt : Nat
  deriving DecidableEq

/-- The options object of `getAttemptsForUser` (`none` models an absent
JS property). -/
structure AttemptQueryOptions where
  subject : Option String := none
  startDate : Option Nat := none
  endDate : Option Nat := none
  limitCount : Option Nat := none
  deriving DecidableEq

/-- The backend query of `getAttemptsForUser`:
`where(userId == currentUser.uid)`. -/
def userFiltered (uid : String) (db : List AttemptDoc) : List AttemptDoc :=
  db.filter (fun a => a.userId == uid)

/-- The client-side subject filter of `getAttemptsForUser`, applied only
when a subject was supplied. -/
def subjectFiltered (opts : AttemptQueryOptions) (l : List AttemptDoc) : List AttemptDoc :=
  match opts.subject with
  | some subj => l.filter (fun a => a.subject == subj)
  | none => l

/-- The client-side date-range filter of `getAttemptsForUser`: an attempt
is dropped when it is before `startDate` or after `endDate`. -/
def dateFiltered (opts : AttemptQueryOptions) (l : List AttemptDoc) : List AttemptDoc :=
  if opts.startDate.isSome || opts.endDate.isSome then
    l.filter (fun a =>
      (match opts.startDate with
       | some sd => decide (sd ≤ a.attemptedAt)
       | none => true)
      && (match opts.endDate with
          | some ed => decide (a.attemptedAt ≤ ed)
          | none => true))
  else l

/-- Embeds `getAttemptsForUser(options)`: requires an authenticated identity;
queries the backend for documents with `userId == currentUser.uid`;
filters client-side by subject and date range; sorts newest-first
(`(a, b) => b.attemptedAt - a.attemptedAt`) and truncates with
`slice(0, limitCount)`, where `limitCount` defaults to 50 when the
caller supplied none. -/
def getAttemptsForUser (auth : Option String) (db : List AttemptDoc)
    (opts : AttemptQueryOptions) : Except String (List AttemptDoc) :=
  match auth with
  | none => Except.error "Authentication required"
  | some uid =>
    Except.ok ((sortByDesc AttemptDoc.attemptedAt
        (dateFiltered opts (subjectFiltered opts (userFiltered uid db)))).take
      (opts.limitCount.getD 50))

theorem mem_subjectFiltered (opts : AttemptQueryOptions) (l : List AttemptDoc)
    (a : AttemptDoc) (h : a ∈ subjectFiltered opts l) : a ∈ l := by
  unfold subjectFiltered at h
  cases hs : opts.subject with
  | none => rw [hs] at h; exact h
  | some subj => rw [hs] at h; exact List.mem_of_mem_filter h

theorem mem_dateFiltered (opts : AttemptQueryOptions) (l : List AttemptDoc)
    (a : AttemptDoc) (h : a ∈ dateFiltered opts l) : a ∈ l := by
  unfold dateFiltered at h
  split at h
  · exact List.mem_of_mem_filter h
  · exact h

/-- A passage document of the `passages` collection. -/
structure PassageDoc where
  id : String
  title : String
  subject : String
  difficulty : String
  isPublished : Bool
  createdAt : Nat
  createdBy : String := ""
  deriving DecidableEq

/-- The options object of `getPassages`; `publishedOnly := none` models
a caller that did not supply the property, so the destructuring default
`!authManager.isAdmin()` applies.  The advisory `orderBy` pass-through is
fixed at its default (`createdAt`, descending). -/
structure PassageQueryOptions where
  subject : Option String := none
  difficulty : Option String := none
  publishedOnly : Option Bool := none
  limitCount : Option Nat := none
  deriving DecidableEq

/-- Embeds `getPassages(options)`: equality filters for subject, difficulty and
(when `publishedOnly` is in effect) `isPublished == true`, ordered by
`createdAt` descending; `limit(limitCount)` is only added when
`limitCount` is truthy (so an absent or zero limit returns everything). -/
def getPassages (adminFlag : Bool) (store : List PassageDoc)
    (opts : PassageQueryOptions) : List PassageDoc :=
  let publishedOnly := opts.publishedOnly.getD (!adminFlag)
  let docs := store.filter (fun p =>
    (match opts.subject with
     | some s => p.subject == s
     | none => true)
    && (match opts.difficulty with
        | some d => p.difficulty == d
        | none => true)
    && (if publishedOnly then p.isPublished else true))
  let docs := sortByDesc PassageDoc.createdAt docs
  match opts.limitCount with
  | some k => if k = 0 then docs else docs.take k
  | none => docs

/-- Embeds `createPassage(passageData)`: the admin check is the first statement,
ahead of the `addDoc` write; the pair returned is the store after the
call together with the outcome. -/
def createPassage (adminFlag : Bool) (uid : String) (newDoc : PassageDoc)
    (store : List PassageDoc) : List PassageDoc × Except String String :=
  if adminFlag = false then
    (store, Except.error "Admin privileges required")
  else
    (store ++ [{ newDoc with createdBy := uid }], Except.ok newDoc.id)

/-- Embeds `updatePassage(passageId, updates)`: admin check first, then the
`updateDoc` write applies the updates to the matching document. -/
def updatePassage (adminFlag : Bool) (passageId : String)
    (updates : PassageDoc → PassageDoc) (store : List PassageDoc) :
    List PassageDoc × Except String Unit :=
  if adminFlag = false then
    (store, Except.error "Admin privileges required")
  else
    (store.map (fun p => if p.id == passageId then updates p else p), Except.ok ())

/-- Embeds `deletePassage(passageId)`: admin check first, then the `deleteDoc`
write removes the matching document. -/
def deletePassage (adminFlag : Bool) (passageId : String)
    (store : List PassageDoc) : List PassageDoc × Except String Unit :=
  if adminFlag = false then
    (store, Except.error "Admin privileges required")
  else
    (store.filter (fun p => !(p.id == passageId)), Except.ok ())

theorem specCorrectCount_le_length (questions : List Question)
    (answers : List (Nat × Nat)) :
    specCorrectCount questions answers ≤ questions.length := by
  have h := List.length_filter_le
    (fun i => lookupAnswer answers i == (questions.get? i).map Question.answerIndex)
    (List.range questions.length)
  simpa [specCorrectCount, specCorrectList] using h

/-- C1: for every passage with at least one question and every answer
mapping (including the empty one), the computed percentage equals
round-half-up of `100 * |{i : A[i] = correctIndex[i]}| / N`, it lies in
`[0, 100]` (the lower bound holds because it is a `Nat`), and an index
without an answer is never in the correct set. -/
theorem scoring_C1 (questions : List Question) (answers : List (Nat × Nat))
    (startTime now : Nat) (hN : 1 ≤ questions.length) :
    (calculateScore questions answers startTime now).percentage
        = mathRound (100 * specCorrectCount questions answers) questions.length
    ∧ (calculateScore questions answers startTime now).percentage ≤ 100
    ∧ ∀ i, lookupAnswer answers i = none → i ∉ specCorrectList questions answers := by
  have hpct : (calculateScore questions answers startTime now).percentage
      = mathRound (100 * countCorrectFrom answers 0 questions) questions.length := rfl
  refine ⟨?_, ?_, ?_⟩
  · rw [hpct, countCorrectFrom_eq_specCorrectCount]
  · rw [hpct, countCorrectFrom_eq_specCorrectCount]
    exact mathRound_le_100 _ _ hN (specCorrectCount_le_length questions answers)
  · intro i hnone hmem
    rw [specCorrectList, List.mem_filter] at hmem
    rcases hmem with ⟨hi, hcond⟩
    rw [List.mem_range] at hi
    rw [hnone, List.get?_eq_get hi] at hcond
    simp at hcond

theorem scoring_C1_witness :
    1 ≤ exActive.questions.length
    ∧ (calculateScore exActive.questions exActive.userAnswers 0 10000).percentage
        = mathRound (100 * specCorrectCount exActive.questions exActive.userAnswers)
            exActive.questions.length
    ∧ (calculateScore exActive.questions exActive.userAnswers 0 10000).percentage ≤ 100 :=
  ⟨by decide,
    (scoring_C1 exActive.questions exActive.userAnswers 0 10000 (by decide)).1,
    (scoring_C1 exActive.questions exActive.userAnswers 0 10000 (by decide)).2.1⟩

theorem submitQuiz_confirmed (s : QuizState) (now : Nat) :
    submitQuiz s false true now
      = showResults { s with timerRunning := false }
          (calculateScore s.questions s.userAnswers s.startTime now) := by
  simp [submitQuiz]

theorem showResults_loggedIn (s : QuizState) (r : ScoreResult)
    (h : s.loggedIn = true) :
    showResults s r
      = { s with
          displayed := some r
          savedAttempts := s.savedAttempts ++
            [{ passageId := s.passageId, score := r.correct,
               timeElapsed := r.timeElapsed, totalQuestions := r.total }] } := by
  simp [showResults, h]

/-- The quiz state after submitting the example session once. -/
def exOnce : QuizState := submitQuiz exActive false true 10000

/-- The quiz state after pressing submit a second time (for example via
the Ctrl+Enter shortcut, which calls `submitQuiz()` with no guard). -/
def exTwice : QuizState := submitQuiz exOnce false true 20000

/-- C2 counterexample: in the example session the first submit records
one attempt and a second submit records a second, duplicate attempt —
`submitQuiz` has no idempotence guard, so the second call is not
ignored. -/
theorem submit_C2_counterexample :
    exOnce.savedAttempts.length = 1 ∧ exTwice.savedAttempts.length = 2 := by
  constructor <;> rfl

/-- C2 amended: a second confirmed submit after the first one is not a
no-op — whenever a user is signed in it appends one more (duplicate)
attempt record; the displayed score percentage, however, is unchanged,
because the answers are unchanged. -/
theorem submit_C2_amended (s : QuizState) (n1 n2 : Nat) (h : s.loggedIn = true) :
    (submitQuiz (submitQuiz s false true n1) false true n2).savedAttempts.length
        = (submitQuiz s false true n1).savedAttempts.length + 1
    ∧ (submitQuiz (submitQuiz s false true n1) false true n2).displayed.map
          ScoreResult.percentage
        = (submitQuiz s false true n1).displayed.map ScoreResult.percentage := by
  constructor
  · simp [submitQuiz, showResults, h]
  · simp [submitQuiz, showResults, h, calculateScore]

theorem submit_C2_witness :
    exActive.loggedIn = true
    ∧ (submitQuiz (submitQuiz exActive false true 10000) false true 20000).savedAttempts.length
        = (submitQuiz exActive false true 10000).savedAttempts.length + 1
    ∧ (submitQuiz (submitQuiz exActive false true 10000) false true 20000).displayed.map
          ScoreResult.percentage
        = (submitQuiz exActive false true 10000).displayed.map ScoreResult.percentage :=
  ⟨rfl, (submit_C2_amended exActive 10000 20000 rfl).1,
    (submit_C2_amended exActive 10000 20000 rfl).2⟩

theorem showResults_projections (s : QuizState) (r : ScoreResult) :
    (showResults s r).timerRunning = s.timerRunning
    ∧ (showResults s r).autoSubmits = s.autoSubmits := by
  refine ⟨?_, ?_⟩ <;> (simp only [showResults]; split <;> rfl)

/-- C3: while a session is active the remaining seconds are
non-increasing in wall-clock time and clamped at 0; a tick that observes
exactly 0 clears the interval (no later tick has any effect) and
triggers automatic submission exactly once. -/
theorem timer_C3 (s : QuizState) (now : Nat) (later : List Nat)
    (hrun : s.timerRunning = true) (hzero : remainingSeconds s now = 0) :
    (∀ n1 n2 : Nat, n1 ≤ n2 → remainingSeconds s n2 ≤ remainingSeconds s n1)
    ∧ (∀ n : Nat, 0 ≤ remainingSeconds s n)
    ∧ (timerTick s now).timerRunning = false
    ∧ (timerTick s now).autoSubmits = s.autoSubmits + 1
    ∧ runTicks (timerTick s now) later = timerTick s now := by
  have htick := timerTick_zero s now hrun hzero
  have hstop : (timerTick s now).timerRunning = false := by
    rw [htick]
    exact (showResults_projections _ _).1
  refine ⟨?_, ?_, hstop, ?_, ?_⟩
  · intro n1 n2 h12
    unfold remainingSeconds
    apply max_le_max le_rfl
    have hmono : elapsedSeconds s n1 ≤ elapsedSeconds s n2 :=
      Nat.div_le_div_right (Nat.sub_le_sub_right h12 _)
    omega
  · intro n
    exact le_max_left 0 _
  · rw [htick]
  · exact runTicks_not_running _ later hstop

theorem timer_C3_witness :
    exActive.timerRunning = true
    ∧ remainingSeconds exActive 60000 = 0
    ∧ (timerTick exActive 60000).timerRunning = false
    ∧ (timerTick exActive 60000).autoSubmits = exActive.autoSubmits + 1
    ∧ runTicks (timerTick exActive 60000) [61000, 62000] = timerTick exActive 60000 :=
  ⟨rfl, by decide,
    (timer_C3 exActive 60000 [61000, 62000] rfl (by decide)).2.2.1,
    (timer_C3 exActive 60000 [61000, 62000] rfl (by decide)).2.2.2.1,
    (timer_C3 exActive 60000 [61000, 62000] rfl (by decide)).2.2.2.2⟩

/-- C5 counterexample: in the example session (60-second limit) the
timer callback fires at wall clock 61500 ms, observes 0 remaining and
auto-submits; the persisted attempt carries `timeElapsed = 61`, which
exceeds the 60-second limit — no cap is applied. -/
theorem autosubmit_C5_counterexample :
    (timerTick exActive 61500).savedAttempts.map SavedAttempt.timeElapsed = [61]
    ∧ exActive.timeLimit = 60 := by
  constructor <;> rfl

/-- C5 amended: the time recorded by an auto-submission is the uncapped
`floor((now - startedAt) / 1000)`; it is always at least
`timeLimitSeconds` (and can strictly exceed it), not capped at it. -/
theorem autosubmit_C5_amended (s : QuizState) (now : Nat)
    (hrun : s.timerRunning = true) (hzero : remainingSeconds s now = 0)
    (hlog : s.loggedIn = true) :
    (timerTick s now).savedAttempts
      = s.savedAttempts
        ++ [{ passageId := s.passageId
              score := (calculateScore s.questions s.userAnswers s.startTime now).correct
              timeElapsed := elapsedSeconds s now
              totalQuestions := s.questions.length }]
    ∧ s.timeLimit ≤ elapsedSeconds s now := by
  constructor
  · rw [timerTick_zero s now hrun hzero]
    simp [showResults, hlog, calculateScore, elapsedSeconds]
  · have hx : (s.timeLimit : Int) - (elapsedSeconds s now : Int) ≤ 0 := by
      unfold remainingSeconds at hzero
      exact max_eq_left_iff.mp hzero
    omega

theorem autosubmit_C5_witness :
    exActive.timerRunning = true
    ∧ remainingSeconds exActive 61500 = 0
    ∧ exActive.loggedIn = true
    ∧ exActive.timeLimit ≤ elapsedSeconds exActive 61500 :=
  ⟨rfl, by decide, rfl,
    (autosubmit_C5_amended exActive 61500 rfl (by decide) rfl).2⟩

/-- C9: a non-auto submit with unanswered questions whose confirmation
dialog is declined leaves the session unchanged — same answers, same
`startTime`, no attempt saved, nothing newly displayed — and restarts
the timer, whose remaining seconds are still measured from the original
`startTime` (so time spent in the dialog still counts). -/
theorem decline_frame_C9 (s : QuizState) (now : Nat)
    (h : answeredCount s < s.questions.length) :
    (submitQuiz s false false now).userAnswers = s.userAnswers
    ∧ (submitQuiz s false false now).startTime = s.startTime
    ∧ (submitQuiz s false false now).savedAttempts = s.savedAttempts
    ∧ (submitQuiz s false false now).displayed = s.displayed
    ∧ (submitQuiz s false false now).timerRunning = true
    ∧ ∀ n : Nat, remainingSeconds (submitQuiz s false false now) n
        = remainingSeconds s n := by
  unfold submitQuiz
  rw [if_pos ⟨rfl, h, rfl⟩]
  exact ⟨rfl, rfl, rfl, rfl, rfl, fun _ => rfl⟩

/-- The example session before any question has been answered. -/
def exUnanswered : QuizState := { exActive with userAnswers := [] }

theorem decline_frame_C9_witness :
    answeredCount exUnanswered < exUnanswered.questions.length
    ∧ (submitQuiz exUnanswered false false 5000).savedAttempts = exUnanswered.savedAttempts
    ∧ (submitQuiz exUnanswered false false 5000).timerRunning = true
    ∧ remainingSeconds (submitQuiz exUnanswered false false 5000) 30000
        = remainingSeconds exUnanswered 30000 :=
  ⟨by decide,
    (decline_frame_C9 exUnanswered 5000 (by decide)).2.2.1,
    (decline_frame_C9 exUnanswered 5000 (by decide)).2.2.2.2.1,
    (decline_frame_C9 exUnanswered 5000 (by decide)).2.2.2.2.2 30000⟩

/-- A paste block whose first question carries two `*` markers. -/
def c4TwoStar : String := "Question: Pick\nA) one*\nB) two*\nC) three\nD) four"

/-- A paste block whose first option is nothing but a `*` marker, so its
stored text is empty. -/
def c4EmptyOption : String := "Question: Capital?\nA) *\nB) Paris\nC) Rome\nD) Berlin"

/-- C4 counterexample: `parseQuestionText` accepts a question with two
starred options (keeping the last marker as `correctIndex`), and accepts
a question one of whose four options is the empty string — so a question
is not accepted "only if" it has four non-empty options and exactly one
marked correct option. -/
theorem bulkParse_C4_counterexample :
    parseQuestionText c4TwoStar
      = [{ text := "Pick", options := ["one", "two", "three", "four"], correctIndex := 1 }]
    ∧ parseQuestionText c4EmptyOption
      = [{ text := "Capital?", options := ["", "Paris", "Rome", "Berlin"], correctIndex := 0 }] := by
  constructor <;> rfl

/-- C4 amended: every accepted question has a non-empty prompt, exactly
4 options (each possibly empty) and a `correctIndex` in `[0, 3]` set by
the last `*` marker seen (so at least one, not exactly one, marked
option); failing questions are dropped whole.  A well-formed 2-question
block parses to exactly 2 questions with the right `correctIndex`
values, and a question with only 3 options is dropped, yielding the
empty list rather than an error. -/
theorem bulkParse_C4_amended :
    (∀ (text : String) (q : RawQuestion), q ∈ parseQuestionText text →
        q.text ≠ "" ∧ q.options.length = 4
        ∧ 0 ≤ q.correctIndex ∧ q.correctIndex < 4)
    ∧ parseQuestionText
        "Question: Q1\nA) a\nB) b*\nC) c\nD) d\nQuestion: Q2\nA) e*\nB) f\nC) g\nD) h"
      = [{ text := "Q1", options := ["a", "b", "c", "d"], correctIndex := 1 },
         { text := "Q2", options := ["e", "f", "g", "h"], correctIndex := 0 }]
    ∧ parseQuestionText "Question: Q1\nA) a*\nB) b\nC) c" = [] := by
  refine ⟨?_, rfl, rfl⟩
  intro text q hq
  unfold parseQuestionText at hq
  rw [List.mem_filter] at hq
  rcases hq with ⟨hmem, hcond⟩
  have hinv := parseLines_inv _ none (by intro p hp; cases hp) q hmem
  simp only [Bool.and_eq_true, Bool.not_eq_true', beq_eq_false_iff_ne, ne_eq,
    beq_iff_eq, decide_eq_true_eq] at hcond
  rcases hcond with ⟨⟨htext, hlen⟩, hci⟩
  refine ⟨htext, hlen, hci, ?_⟩
  have := hinv
  rw [rawInv, hlen] at this
  exact_mod_cast this

theorem bulkParse_C4_witness :
    ({ text := "Pick", options := ["one", "two", "three", "four"],
       correctIndex := 1 } : RawQuestion) ∈ parseQuestionText c4TwoStar
    ∧ (({ text := "Pick", options := ["one", "two", "three", "four"],
          correctIndex := 1 } : RawQuestion).text ≠ ""
       ∧ ({ text := "Pick", options := ["one", "two", "three", "four"],
            correctIndex := 1 } : RawQuestion).options.length = 4
       ∧ 0 ≤ ({ text := "Pick", options := ["one", "two", "three", "four"],
                correctIndex := 1 } : RawQuestion).correctIndex
       ∧ ({ text := "Pick", options := ["one", "two", "three", "four"],
            correctIndex := 1 } : RawQuestion).correctIndex < 4) :=
  ⟨by decide, bulkParse_C4_amended.1 c4TwoStar _ (by decide)⟩

/-- C6: `getAttemptsForUser` refuses an unauthenticated caller, and for
an authenticated caller every returned attempt belongs to the current
identity, whatever subject, date-range or limit options are supplied. -/
theorem attempts_owner_C6 (db : List AttemptDoc) (opts : AttemptQueryOptions) :
    getAttemptsForUser none db opts = Except.error "Authentication required"
    ∧ ∀ (uid : String) (l : List AttemptDoc),
        getAttemptsForUser (some uid) db opts = Except.ok l →
        ∀ a ∈ l, a.userId = uid := by
  refine ⟨rfl, ?_⟩
  intro uid l hl a ha
  simp only [getAttemptsForUser, Except.ok.injEq] at hl
  rw [← hl] at ha
  have h1 : a ∈ sortByDesc AttemptDoc.attemptedAt
      (dateFiltered opts (subjectFiltered opts (userFiltered uid db))) :=
    List.mem_of_mem_take ha
  have h2 := (mem_sortByDesc AttemptDoc.attemptedAt a _).mp h1
  have h3 := mem_subjectFiltered opts _ a (mem_dateFiltered opts _ a h2)
  rw [userFiltered, List.mem_filter] at h3
  exact eq_of_beq h3.2

/-- An attempt by user u1, used to instantiate the repository claims. -/
def exAttA : AttemptDoc :=
  { id := "at1", userId := "u1", subject := "Biology", score := 80,
    timeTakenSec := 100, attemptedAt := 5000 }

/-- An attempt by a different user u2. -/
def exAttB : AttemptDoc :=
  { id := "at2", userId := "u2", subject := "Biology", score := 90,
    timeTakenSec := 120, attemptedAt := 6000 }

theorem attempts_owner_C6_witness :
    getAttemptsForUser (some "u1") [exAttA, exAttB] {} = Except.ok [exAttA]
    ∧ exAttA.userId = "u1" :=
  ⟨rfl, (attempts_owner_C6 [exAttA, exAttB] {}).2 "u1" [exAttA] rfl exAttA
    (by decide)⟩

/-- C7: without the admin role each of `createPassage`, `updatePassage`
and `deletePassage` fails with the admin-privileges error and the stored
passages are unchanged — the check precedes any write. -/
theorem adminGate_C7 (store : List PassageDoc) (uid : String)
    (newDoc : PassageDoc) (passageId : String)
    (updates : PassageDoc → PassageDoc) :
    createPassage false uid newDoc store
        = (store, Except.error "Admin privileges required")
    ∧ updatePassage false passageId updates store
        = (store, Except.error "Admin privileges required")
    ∧ deletePassage false passageId store
        = (store, Except.error "Admin privileges required") :=
  ⟨rfl, rfl, rfl⟩

/-- C8: a `getPassages` call without `publishedOnly` behaves exactly as
one with `publishedOnly := !isAdmin()`; and whenever the effective
`publishedOnly` is true, every returned passage is published. -/
theorem publishedDefault_C8 (adminFlag : Bool) (store : List PassageDoc)
    (opts : PassageQueryOptions) :
    getPassages adminFlag store { opts with publishedOnly := none }
      = getPassages adminFlag store { opts with publishedOnly := some (!adminFlag) }
    ∧ (opts.publishedOnly.getD (!adminFlag) = true →
        ∀ p ∈ getPassages adminFlag store opts, p.isPublished = true) := by
  refine ⟨rfl, ?_⟩
  intro hpub p hp
  unfold getPassages at hp
  rw [hpub] at hp
  have h1 : p ∈ sortByDesc PassageDoc.createdAt (store.filter (fun p =>
      (match opts.subject with
       | some s => p.subject == s
       | none => true)
      && (match opts.difficulty with
          | some d => p.difficulty == d
          | none => true)
      && (if true then p.isPublished else true))) := by
    rcases hk : opts.limitCount with _ | k
    · simp only [hk] at hp
      exact hp
    · by_cases hk0 : k = 0
      · simp only [hk, hk0, if_pos] at hp
        exact hp
      · simp only [hk, if_neg hk0] at hp
        exact List.mem_of_mem_take hp
  have h2 := (mem_sortByDesc PassageDoc.createdAt p _).mp h1
  rw [List.mem_filter] at h2
  have h3 := h2.2
  simp only [Bool.and_eq_true, if_true] at h3
  exact h3.2

/-- A published passage document. -/
def exPub : PassageDoc :=
  { id := "p1", title := "Cells", subject := "Biology",
    difficulty := "Easy", isPublished := true, createdAt := 100 }

/-- An unpublished draft passage document. -/
def exDraft : PassageDoc :=
  { id := "p2", title := "Waves", subject := "Physics",
    difficulty := "Hard", isPublished := false, createdAt := 200 }

theorem publishedDefault_C8_witness :
    (({} : PassageQueryOptions).publishedOnly.getD (!false) = true)
    ∧ exPub.isPublished = true :=
  ⟨rfl, (publishedDefault_C8 false [exPub, exDraft] {}).2 rfl exPub (by decide)⟩

/-- C10: without an explicit limit, `getAttemptsForUser` succeeds with a
list sorted newest-first whose length is at most 50 — the default limit
50 is applied to the matching attempts. -/
theorem attempts_default_limit_C10 (db : List AttemptDoc) (uid : String)
    (opts : AttemptQueryOptions) (h : opts.limitCount = none) :
    ∃ l, getAttemptsForUser (some uid) db opts = Except.ok l
      ∧ l.Pairwise (fun a b => b.attemptedAt ≤ a.attemptedAt)
      ∧ l.length ≤ 50
      ∧ l.length = min 50
          (dateFiltered opts (subjectFiltered opts (userFiltered uid db))).length := by
  refine ⟨_, rfl, ?_, ?_, ?_⟩
  · exact (pairwise_sortByDesc AttemptDoc.attemptedAt _).sublist
      (List.take_sublist _ _)
  · rw [h]
    simp only [Option.getD_some, Option.getD_none, List.length_take]
    omega
  · rw [h]
    simp only [Option.getD_none, List.length_take,
      length_sortByDesc AttemptDoc.attemptedAt]

theorem attempts_default_limit_C10_witness :
    ({} : AttemptQueryOptions).limitCount = none
    ∧ ∃ l, getAttemptsForUser (some "u1") [exAttA, exAttB] {} = Except.ok l
        ∧ l.Pairwise (fun a b => b.attemptedAt ≤ a.attemptedAt)
        ∧ l.length ≤ 50
        ∧ l.length = min 50
            (dateFiltered {} (subjectFiltered {} (userFiltered "u1" [exAttA, exAttB]))).length :=
  ⟨rfl, attempts_default_limit_C10 [exAttA, exAttB] "u1" {} rfl⟩

end StudySphere
